import Mathlib

/-!
Verification of the browser-side dependency/lookup/editor logic of the
TechGuidesV2 repository.  Each definition is a shallow embedding of a
function from `src/static/js/`; DOM reads are modelled as explicit inputs
and DOM writes as explicit outputs.  JavaScript strings are modelled as
`String`, JS truthiness of a string as `≠ ""`, and JS `x || y` by the
helpers `jsOrString` / `jsOrBool` below.
-/

namespace TechGuides

/-! ## JavaScript primitives -/

/-- JS `a || b` for string operands where `a` may be `undefined` (modelled as
`none`): `undefined` and `""` are falsy, any other string is returned as-is. -/
def jsOrString : Option String → String → String
  | some v, d => if v == "" then d else v
  | none, d => d

/-- JS `a || b` for boolean operands where `a` may be `undefined`
(from `element?.checked`): `undefined` and `false` are falsy. -/
def jsOrBool : Option Bool → Bool → Bool
  | some v, d => v || d
  | none, d => d

/-- JS `parseInt(x?.value) || d` for the value of a number input, `none` when
the element is absent.  `parseInt` is modelled on the plain decimal strings a
number input produces (`String.toNat?`); a missing element, an unparsable
string and a parsed `0` are all falsy, so the default applies. -/
def jsParseIntOr (input : Option String) (d : Nat) : Nat :=
  match input with
  | none => d
  | some s =>
    match s.toNat? with
    | none => d
    | some n => if n = 0 then d else n

/-- JS `s.trim()`: strip leading and trailing whitespace. -/
def jsTrim (s : String) : String :=
  String.mk (((s.toList.dropWhile Char.isWhitespace).reverse.dropWhile
    Char.isWhitespace).reverse)

/-- Boolean prefix test on character lists (the leading-match part of
JS `String.prototype.includes`). -/
def isPrefList : List Char → List Char → Bool
  | [], _ => true
  | _ :: _, [] => false
  | a :: as, b :: bs => a == b && isPrefList as bs

/-- Boolean substring (infix) test on character lists. -/
def subListB : List Char → List Char → Bool
  | needle, [] => needle.isEmpty
  | needle, h :: t => isPrefList needle (h :: t) || subListB needle t

/-- JS `s.includes(sub)`: `sub` occurs contiguously inside `s`. -/
def jsIncludes (s sub : String) : Bool :=
  subListB sub.toList s.toList

theorem isPrefList_iff : ∀ (n h : List Char), isPrefList n h = true ↔ ∃ post, h = n ++ post
  | [], h => by simp [isPrefList]
  | _ :: _, [] => by simp [isPrefList]
  | a :: as, b :: bs => by
      simp only [isPrefList, Bool.and_eq_true, beq_iff_eq, List.cons_append, List.cons.injEq]
      constructor
      · rintro ⟨rfl, hp⟩
        rcases (isPrefList_iff as bs).1 hp with ⟨post, rfl⟩
        exact ⟨post, rfl, rfl⟩
      · rintro ⟨post, hab, hbs⟩
        exact ⟨hab.symm, (isPrefList_iff as bs).2 ⟨post, hbs⟩⟩

theorem subListB_iff : ∀ (n h : List Char), subListB n h = true ↔ ∃ pre post, h = pre ++ n ++ post
  | n, [] => by
      constructor
      · intro hs
        have hn : n = [] := by
          cases n with
          | nil => rfl
          | cons a as => simp [subListB, List.isEmpty] at hs
        exact ⟨[], [], by simp [hn]⟩
      · rintro ⟨pre, post, hp⟩
        have h1 : pre ++ n = [] := (List.append_eq_nil.mp hp.symm).1
        have hn : n = [] := (List.append_eq_nil.mp h1).2
        simp [subListB, hn, List.isEmpty]
  | n, hd :: t => by
      simp only [subListB, Bool.or_eq_true]
      rw [isPrefList_iff, subListB_iff]
      constructor
      · rintro (⟨post, hp⟩ | ⟨pre, post, hp⟩)
        · exact ⟨[], post, by simpa using hp⟩
        · exact ⟨hd :: pre, post, by simp [hp]⟩
      · rintro ⟨pre, post, hp⟩
        cases pre with
        | nil => exact Or.inl ⟨post, by simpa using hp⟩
        | cons p ps =>
            right
            have : hd :: t = p :: (ps ++ n ++ post) := by simpa using hp
            rcases List.cons.injEq .. ▸ this with ⟨_, ht⟩
            exact ⟨ps, post, by simpa using ht⟩

/-- `jsIncludes s sub` holds exactly when the characters of `sub` occur
contiguously inside the characters of `s`. -/
theorem jsIncludes_iff (s sub : String) :
    jsIncludes s sub = true ↔ ∃ pre post, s.toList = pre ++ sub.toList ++ post := by
  exact subListB_iff sub.toList s.toList

/-! ## `evaluateFieldDependency` (src/static/js/enhanced-case-form.js)

A visibility rule carries a `condition` and a comparison `value`
(`dependency.condition` / `dependency.value`); the target field's container
is shown or hidden and, on hide, the target field's value is set to `''`.
The trigger value read from a DOM input is always a string. -/

structure VisibilityRule where
  condition : String
  value : String
deriving DecidableEq, Repr

/-- Visible state (container shown) and current value of the target field. -/
structure FieldState where
  visible : Bool
  value : String
deriving DecidableEq, Repr

/-- The `switch (dependency.condition)` computing `shouldShow`. -/
def shouldShowCond (condition triggerValue comparison : String) : Bool :=
  if condition == "equals" then triggerValue == comparison
  else if condition == "not_equals" then triggerValue != comparison
  else if condition == "contains" then jsIncludes triggerValue comparison
  else if condition == "not_empty" then (triggerValue != "") && (jsTrim triggerValue != "")
  else if condition == "empty" then (triggerValue == "") || (jsTrim triggerValue == "")
  else true

/-- `evaluateFieldDependency(dependency, triggerValue)` acting on the target
field's state: show the container, or hide it and clear the field's value. -/
def evaluateFieldDependency (dep : VisibilityRule) (triggerValue : String)
    (target : FieldState) : FieldState :=
  if shouldShowCond dep.condition triggerValue dep.value then
    ⟨true, target.value⟩
  else
    ⟨false, ""⟩

theorem visible_eval (dep : VisibilityRule) (v : String) (t : FieldState) :
    (evaluateFieldDependency dep v t).visible = shouldShowCond dep.condition v dep.value := by
  unfold evaluateFieldDependency
  split <;> simp_all

theorem shouldShowCond_equals (v cmp : String) :
    shouldShowCond "equals" v cmp = (v == cmp) := rfl

theorem shouldShowCond_not_equals (v cmp : String) :
    shouldShowCond "not_equals" v cmp = (v != cmp) := rfl

theorem shouldShowCond_contains (v cmp : String) :
    shouldShowCond "contains" v cmp = jsIncludes v cmp := rfl

theorem shouldShowCond_not_empty (v cmp : String) :
    shouldShowCond "not_empty" v cmp = ((v != "") && (jsTrim v != "")) := rfl

theorem shouldShowCond_empty (v cmp : String) :
    shouldShowCond "empty" v cmp = ((v == "") || (jsTrim v == "")) := rfl

theorem shouldShowCond_default (c v cmp : String) (h1 : c ≠ "equals")
    (h2 : c ≠ "not_equals") (h3 : c ≠ "contains") (h4 : c ≠ "not_empty")
    (h5 : c ≠ "empty") : shouldShowCond c v cmp = true := by
  have e1 : (c == "equals") = false := beq_eq_false_iff_ne.mpr h1
  have e2 : (c == "not_equals") = false := beq_eq_false_iff_ne.mpr h2
  have e3 : (c == "contains") = false := beq_eq_false_iff_ne.mpr h3
  have e4 : (c == "not_empty") = false := beq_eq_false_iff_ne.mpr h4
  have e5 : (c == "empty") = false := beq_eq_false_iff_ne.mpr h5
  simp [shouldShowCond, e1, e2, e3, e4, e5]

theorem jsTrim_empty : jsTrim "" = "" := rfl

/-- Claim C1: the dependency evaluator computes visibility as: `equals` is
true iff the trigger value is exactly string-equal to the comparison value;
`not_equals` is its negation; `contains` is true iff the trigger value
contains the comparison value as a substring; `not_empty` is true iff the
trigger value is non-empty after trimming whitespace; `empty` is true iff
the trigger value is empty after trimming (a DOM input's value is always a
string, so "absent" reads as `""`); and any unrecognized condition yields
visible = true (fail-open). -/
theorem claim_C1_condition_semantics (v cmp : String) (t : FieldState) :
    ((evaluateFieldDependency ⟨"equals", cmp⟩ v t).visible = true ↔ v = cmp)
    ∧ ((evaluateFieldDependency ⟨"not_equals", cmp⟩ v t).visible = true ↔ v ≠ cmp)
    ∧ ((evaluateFieldDependency ⟨"contains", cmp⟩ v t).visible = true ↔
        ∃ pre post, v.toList = pre ++ cmp.toList ++ post)
    ∧ ((evaluateFieldDependency ⟨"not_empty", cmp⟩ v t).visible = true ↔ jsTrim v ≠ "")
    ∧ ((evaluateFieldDependency ⟨"empty", cmp⟩ v t).visible = true ↔ jsTrim v = "")
    ∧ (∀ c, c ≠ "equals" → c ≠ "not_equals" → c ≠ "contains" → c ≠ "not_empty" →
        c ≠ "empty" → (evaluateFieldDependency ⟨c, cmp⟩ v t).visible = true) := by
  refine ⟨?_, ?_, ?_, ?_, ?_, ?_⟩
  · rw [visible_eval, shouldShowCond_equals]
    exact beq_iff_eq
  · rw [visible_eval, shouldShowCond_not_equals]
    exact bne_iff_ne
  · rw [visible_eval, shouldShowCond_contains]
    exact jsIncludes_iff v cmp
  · rw [visible_eval, shouldShowCond_not_empty]
    by_cases hv : v = ""
    · subst hv
      simp [jsTrim_empty]
    · simp [hv]
  · rw [visible_eval, shouldShowCond_empty]
    by_cases hv : v = ""
    · subst hv
      simp [jsTrim_empty]
    · simp [hv]
  · intro c h1 h2 h3 h4 h5
    rw [visible_eval, shouldShowCond_default c v cmp h1 h2 h3 h4 h5]

theorem claim_C1_condition_semantics_witness :
    (evaluateFieldDependency ⟨"custom_rule", "y"⟩ "x" ⟨true, "x"⟩).visible = true
    ∧ (evaluateFieldDependency ⟨"contains", "123"⟩ "abc-123" ⟨true, ""⟩).visible = true
    ∧ (evaluateFieldDependency ⟨"contains", "999"⟩ "abc-123" ⟨true, ""⟩).visible = false :=
  ⟨(claim_C1_condition_semantics "x" "y" ⟨true, "x"⟩).2.2.2.2.2 "custom_rule"
      (by decide) (by decide) (by decide) (by decide) (by decide),
   (claim_C1_condition_semantics "abc-123" "123" ⟨true, ""⟩).2.2.1.mpr
      ⟨"abc-".toList, [], by decide⟩,
   by decide⟩

/-- Claim C3: whenever a visibility-rule evaluation leaves the target field
hidden, the same evaluation has cleared the target field's value, so no
evaluation leaves a hidden field holding a stale non-empty value. -/
theorem claim_C3_hide_clears_value (dep : VisibilityRule) (v : String)
    (t : FieldState) (h : (evaluateFieldDependency dep v t).visible = false) :
    (evaluateFieldDependency dep v t).value = "" := by
  cases hs : shouldShowCond dep.condition v dep.value
  · simp [evaluateFieldDependency, hs]
  · simp [evaluateFieldDependency, hs] at h

theorem claim_C3_hide_clears_value_witness :
    (evaluateFieldDependency ⟨"equals", "a"⟩ "b" ⟨true, "stale"⟩).visible = false
    ∧ (evaluateFieldDependency ⟨"equals", "a"⟩ "b" ⟨true, "stale"⟩).value = "" :=
  ⟨by decide, claim_C3_hide_clears_value ⟨"equals", "a"⟩ "b" ⟨true, "stale"⟩ (by decide)⟩

/-- Claim C4: for every trigger value (DOM values are strings, never null),
the `empty` and `not_empty` conditions evaluate to exact boolean
complements, and in particular they are not both true on the input `""`. -/
theorem claim_C4_empty_not_empty_complement (v cmp1 cmp2 : String)
    (t1 t2 : FieldState) :
    ((evaluateFieldDependency ⟨"empty", cmp1⟩ v t1).visible
        = !(evaluateFieldDependency ⟨"not_empty", cmp2⟩ v t2).visible)
    ∧ ¬((evaluateFieldDependency ⟨"empty", cmp1⟩ "" t1).visible = true
        ∧ (evaluateFieldDependency ⟨"not_empty", cmp2⟩ "" t2).visible = true) := by
  constructor
  · rw [visible_eval, visible_eval, shouldShowCond_empty, shouldShowCond_not_empty]
    cases h1 : (v == "") <;> cases h2 : (jsTrim v == "") <;> simp [bne, h1, h2]
  · rintro ⟨_, h2⟩
    rw [visible_eval, shouldShowCond_not_empty] at h2
    simp at h2

/-! ## `validateField` (src/static/js/enhanced-case-form.js)

A field's DOM context is modelled explicitly: `container` is the value of
`closest('.field-container').style.display` (`none` when the field has no
enclosing container), `checkedCount` the number of `:checked` inputs inside
the container (read for checkbox/radio groups), `maxlength` the parsed
numeric `maxlength` attribute.  `new URL(...)` succeeding is modelled by an
arbitrary predicate `urlOk` supplied by the browser environment. -/

structure CaseField where
  value : String
  required : Bool
  fieldType : String
  maxlength : Option Nat
  checkedCount : Nat
  container : Option String
deriving DecidableEq, Repr

/-- The regex `/^[^\s@]+@[^\s@]+\.[^\s@]+$/`: a character usable in any of
the three runs. -/
def emailChar (c : Char) : Bool :=
  !c.isWhitespace && c != '@'

/-- `emailRegex.test(value)`: the string decomposes as `A@B.C` with `A`, `B`,
`C` non-empty runs free of whitespace and `@` (decided by splitting at the
only possible `@` and looking for an interior dot in the remainder). -/
def emailRegexTest (s : String) : Bool :=
  match s.toList.splitOn '@' with
  | [a, rest] =>
      !a.isEmpty && a.all emailChar && !rest.isEmpty && rest.all emailChar
        && ((rest.drop 1).dropLast.contains '.')
  | _ => false

/-- `validateField(field)`: `true` when the field passes validation. -/
def validateField (urlOk : String → Bool) (f : CaseField) : Bool :=
  if (match f.container with | some d => d == "none" | none => false) then
    true
  else
    (if f.required then
      if f.fieldType == "checkbox" || f.fieldType == "radio" then
        decide (f.checkedCount ≠ 0)
      else
        (f.value != "") && (jsTrim f.value != "")
    else true)
    &&
    (if f.value == "" then true
     else
       (if f.fieldType == "email" then emailRegexTest f.value
        else if f.fieldType == "url" then urlOk f.value
        else true)
       &&
       (match f.maxlength with
        | some m => decide (f.value.length ≤ m)
        | none => true))

/-- Claim C6: a field whose enclosing container is currently hidden passes
validation unconditionally, for any value, any required flag, any field
type, any declared max length, and any URL parser. -/
theorem claim_C6_hidden_fields_skip_validation (urlOk : String → Bool)
    (f : CaseField) (h : f.container = some "none") :
    validateField urlOk f = true := by
  simp [validateField, h]

theorem claim_C6_hidden_fields_skip_validation_witness :
    validateField (fun _ => false)
      ⟨"not an email", true, "email", some 3, 0, some "none"⟩ = true :=
  claim_C6_hidden_fields_skip_validation (fun _ => false)
    ⟨"not an email", true, "email", some 3, 0, some "none"⟩ rfl

/-! ## `setupDependencies` (src/static/js/case-form.js)

A lookup rule (`relations[fieldId]`) carries a table, a match column, and
the parallel arrays `return_columns` / `targets`.  On a trigger change the
code fetches one row and runs, for each `(target, idx)`,
`dest.value = data.data[return_columns[idx]] || dest.value`.  The returned
row is modelled as an association list, the form's field values as a
function from field name to value, and the handler's console output as a
list of log lines (this handler contains no logging calls and no `catch`). -/

structure LookupConfig where
  table : String
  match_column : String
  return_columns : List String
  targets : List String
deriving DecidableEq, Repr

/-- `data.data[col]`: `undefined` (`none`) when the column is absent. -/
def rowGet (row : List (String × String)) (col : String) : Option String :=
  (row.find? (fun p => p.1 == col)).map (fun p => p.2)

/-- Assignment `dest.value = v` for the field named `name`. -/
def setField (fs : String → String) (name v : String) : String → String :=
  fun n => if n == name then v else fs n

/-- One iteration of the `forEach`: `dest.value = data.data[col] || dest.value`. -/
def lookupStep (row : List (String × String)) (fs : String → String)
    (target : String) (colOpt : Option String) : String → String :=
  setField fs target (jsOrString (colOpt.bind (rowGet row)) (fs target))

/-- The `config.targets.forEach((target, idx) => ...)` loop. -/
def applyLoop (row : List (String × String)) (cols : List String) :
    List String → Nat → (String → String) → (String → String)
  | [], _, fs => fs
  | t :: ts, idx, fs => applyLoop row cols ts (idx + 1) (lookupStep row fs t cols[idx]?)

/-- The `data.success` branch of the fetch handler in `setupDependencies`. -/
def applyLookupSuccess (config : LookupConfig) (row : List (String × String))
    (fields : String → String) : String → String :=
  applyLoop row config.return_columns config.targets 0 fields

/-- Outcome of the `/api/case/related-data/...` fetch: a parsed response with
`success:true` and its row, a parsed response with `success:false` (and its
message, which the handler never reads), or a network/parse failure (for
which `setupDependencies` installs no `catch` handler). -/
inductive LookupResponse where
  | success (row : List (String × String))
  | rejected (message : String)
  | transportError
deriving DecidableEq, Repr

/-- The complete fetch continuation of `setupDependencies`: the new field
values together with the console lines it logs. -/
def handleLookupResponse (config : LookupConfig) (resp : LookupResponse)
    (fields : String → String) : (String → String) × List String :=
  match resp with
  | .success row => (applyLookupSuccess config row fields, [])
  | .rejected _ => (fields, [])
  | .transportError => (fields, [])

theorem applyLoop_not_mem (row : List (String × String)) (cols : List String) :
    ∀ (ts : List String) (idx : Nat) (fs : String → String) (n : String),
      n ∉ ts → applyLoop row cols ts idx fs n = fs n
  | [], _, _, _, _ => rfl
  | t :: ts, idx, fs, n, h => by
      have hn : n ≠ t := fun he => h (he ▸ List.mem_cons_self t ts)
      have hmem : n ∉ ts := fun hm => h (List.mem_cons_of_mem t hm)
      rw [applyLoop, applyLoop_not_mem row cols ts (idx + 1) _ n hmem]
      simp [lookupStep, setField, hn]

theorem applyLoop_get (row : List (String × String)) (cols : List String) :
    ∀ (ts : List String) (idx i : Nat) (fs : String → String) (t : String),
      ts.Nodup → ts[i]? = some t →
      applyLoop row cols ts idx fs t
        = jsOrString ((cols[idx + i]?).bind (rowGet row)) (fs t)
  | [], _, i, _, _, _, ht => by simp at ht
  | hd :: ts, idx, 0, fs, t, hnd, ht => by
      have htt : t = hd := by simpa using ht.symm
      subst htt
      have hmem : t ∉ ts := (List.nodup_cons.mp hnd).1
      rw [applyLoop, applyLoop_not_mem row cols ts (idx + 1) _ t hmem]
      simp [lookupStep, setField]
  | hd :: ts, idx, i + 1, fs, t, hnd, ht => by
      have ht2 : ts[i]? = some t := by simpa using ht
      have hmem : t ∈ ts := List.getElem?_mem ht2
      have hne : t ≠ hd := fun he => (List.nodup_cons.mp hnd).1 (he ▸ hmem)
      rw [applyLoop, applyLoop_get row cols ts (idx + 1) i _ t (List.nodup_cons.mp hnd).2 ht2]
      have harith : idx + 1 + i = idx + (i + 1) := by omega
      rw [harith]
      simp [lookupStep, setField, hne]

/-- Claim C2 counterexample: a lookup rule maps target `"t"` to column `"c"`;
the returned row contains column `"c"` with value `""`.  The claim says the
present column sets the target to that value (`""`), but the code's
`data.data[col] || dest.value` keeps the prior value `"old"`. -/
theorem claim_C2_counterexample :
    rowGet [("c", "")] "c" = some ""
    ∧ applyLookupSuccess ⟨"tbl", "m", ["c"], ["t"]⟩ [("c", "")]
        (fun _ => "old") "t" = "old"
    ∧ ("old" : String) ≠ "" :=
  ⟨rfl, rfl, by decide⟩

/-- Claim C2 (amended): for a lookup rule whose targets are distinct, a
`(target, column)` pair whose column is present in the returned row with a
non-empty value sets the target to that value; a pair whose column is absent
from the row, or present with the empty string (JS falsy), leaves the
target's prior value unchanged; fields that are not targets are never
touched. -/
theorem claim_C2_set_on_present (config : LookupConfig)
    (row : List (String × String)) (fields : String → String)
    (hnd : config.targets.Nodup) (i : Nat) (t c : String)
    (ht : config.targets[i]? = some t) (hc : config.return_columns[i]? = some c) :
    ((∀ v, rowGet row c = some v → v ≠ "" →
        applyLookupSuccess config row fields t = v)
      ∧ (rowGet row c = none → applyLookupSuccess config row fields t = fields t)
      ∧ (rowGet row c = some "" → applyLookupSuccess config row fields t = fields t))
    ∧ (∀ n, n ∉ config.targets → applyLookupSuccess config row fields n = fields n) := by
  have hmain : applyLookupSuccess config row fields t
      = jsOrString ((config.return_columns[i]?).bind (rowGet row)) (fields t) := by
    have := applyLoop_get row config.return_columns config.targets 0 i fields t hnd ht
    simpa [applyLookupSuccess] using this
  rw [hc] at hmain
  simp only [Option.some_bind] at hmain
  refine ⟨⟨?_, ?_, ?_⟩, ?_⟩
  · intro v hv hne
    rw [hmain, hv]
    simp [jsOrString, hne]
  · intro hv
    rw [hmain, hv]
    rfl
  · intro hv
    rw [hmain, hv]
    simp [jsOrString]
  · intro n hn
    exact applyLoop_not_mem row config.return_columns config.targets 0 fields n hn

theorem claim_C2_set_on_present_witness :
    applyLookupSuccess ⟨"customers", "id", ["name", "email"], ["customer_name", "customer_email"]⟩
        [("name", "Acme")] (fun n => if n == "customer_email" then "prior" else "") "customer_name"
      = "Acme"
    ∧ applyLookupSuccess ⟨"customers", "id", ["name", "email"], ["customer_name", "customer_email"]⟩
        [("name", "Acme")] (fun n => if n == "customer_email" then "prior" else "") "customer_email"
      = "prior" :=
  ⟨(claim_C2_set_on_present ⟨"customers", "id", ["name", "email"], ["customer_name", "customer_email"]⟩
      [("name", "Acme")] (fun n => if n == "customer_email" then "prior" else "")
      (by decide) 0 "customer_name" "name" rfl rfl).1.1 "Acme" rfl (by decide),
   ((claim_C2_set_on_present ⟨"customers", "id", ["name", "email"], ["customer_name", "customer_email"]⟩
      [("name", "Acme")] (fun n => if n == "customer_email" then "prior" else "")
      (by decide) 1 "customer_email" "email" rfl rfl).1.2.1 rfl).trans rfl⟩

/-- Claim C5 counterexample: on an application rejection (`success:false`)
and on a transport error the handler leaves every field unchanged but logs
nothing — the console-output component is `[]`, contradicting the claim that
both failures are logged. -/
theorem claim_C5_counterexample :
    handleLookupResponse ⟨"tbl", "m", ["c"], ["t"]⟩ (.rejected "server says no")
        (fun _ => "old") = ((fun _ => "old"), [])
    ∧ handleLookupResponse ⟨"tbl", "m", ["c"], ["t"]⟩ .transportError
        (fun _ => "old") = ((fun _ => "old"), []) :=
  ⟨rfl, rfl⟩

/-- Claim C5 (amended): both transport failures and application rejections
are treated as a no-op by the caller — no target field is assigned and all
fields keep their prior values — but neither is logged: the `success:false`
branch is silently ignored and no `catch` handler exists for the fetch. -/
theorem claim_C5_failures_are_silent_noops (config : LookupConfig) (msg : String)
    (fields : String → String) :
    handleLookupResponse config (.rejected msg) fields = (fields, [])
    ∧ handleLookupResponse config .transportError fields = (fields, []) :=
  ⟨rfl, rfl⟩

/-! ## `EnhancedTemplateEditor` (src/static/js/case-form.js)

The editor's modal inputs are modelled by `ConfigInputs`: each
`document.getElementById(id)?.value` is an `Option String` (`none` when the
element is absent from the modal), each `?.checked` an `Option Bool`, the
option rows of `#optionsContainer` a list of `(value, label)` input pairs,
and the per-parent-option dependent rows an association list from parent
option value to its input pairs. -/

structure OptionPair where
  value : String
  label : String
deriving DecidableEq, Repr

inductive ConfigValue where
  | s (v : String)
  | n (v : Nat)
  | b (v : Bool)
  | strList (v : List String)
  | opts (v : List OptionPair)
  | omap (v : List (String × List OptionPair))
deriving DecidableEq, Repr

structure ConfigInputs where
  placeholder : Option String
  maxLength : Option String
  rows : Option String
  optionGroups : List (String × String)
  allowOther : Option Bool
  dataTableSelect : Option String
  searchable : Option Bool
  multiSelect : Option Bool
  minSearchLength : Option String
  maxResults : Option String
  parentField : Option String
  parentOptions : Option (List OptionPair)
  depInputs : List (String × List (String × String))
  maxFileSize : Option String
  allowedTypes : Option String
  multipleFiles : Option Bool
  maxRating : Option String
  ratingStyle : Option String
  allowHalf : Option Bool
deriving DecidableEq, Repr

/-- A modal with every configuration input absent. -/
def emptyInputs : ConfigInputs :=
  ⟨none, none, none, [], none, none, none, none, none, none, none, none, [],
   none, none, none, none, none, none⟩

/-- Split a character list at a separator (JS `String.prototype.split` with a
single-character separator; `"".split(sep)` yields `[""]`). -/
def splitOnChar (sep : Char) : List Char → List (List Char)
  | [] => [[]]
  | c :: t =>
    match splitOnChar sep t with
    | [] => if c == sep then [[], [c]] else [[c]]
    | h :: rest => if c == sep then [] :: h :: rest else (c :: h) :: rest

/-- `(x || '').split(',').map(t => t.trim())` from the `file_upload` branch. -/
def jsSplitCommaTrim (s : String) : List String :=
  (splitOnChar ',' s.toList).map (fun l => jsTrim (String.mk l))

/-- `collectOptions()`: keep rows whose trimmed value is non-empty; the label
defaults to the value when its trimmed text is empty (`label || value`). -/
def collectOptions (groups : List (String × String)) : List OptionPair :=
  groups.filterMap (fun g =>
    let v := jsTrim g.1
    let l := jsTrim g.2
    if v == "" then none else some ⟨v, if l == "" then v else l⟩)

/-- Dependent rows for one parent option value (`querySelectorAll` on the
`dep-value-...`/`dep-label-...` inputs returns nothing for unknown values). -/
def depInputsFor (depInputs : List (String × List (String × String)))
    (v : String) : List (String × String) :=
  match depInputs.find? (fun p => p.1 == v) with
  | some p => p.2
  | none => []

/-- `collectDependentOptions()`: for every option of the selected parent
field, collect an independent `(value, label)` option list (same trim /
default-label rule as `collectOptions`); `{}` when no parent is selected. -/
def collectDependentOptions (parentOptions : Option (List OptionPair))
    (depInputs : List (String × List (String × String))) :
    List (String × List OptionPair) :=
  match parentOptions with
  | none => []
  | some opts => opts.map (fun o => (o.value, collectOptions (depInputsFor depInputs o.value)))

/-- `collectFieldTypeConfig(fieldData)`: the `switch (fieldData.field_type)`
building `fieldData.config`, returned as the ordered key/value list of
assignments.  Field types without a `case` (notably `autocomplete` and
`date`) fall through and assign nothing. -/
def collectFieldTypeConfig (fieldType : String) (inp : ConfigInputs) :
    List (String × ConfigValue) :=
  if fieldType == "text" || fieldType == "textarea" then
    [("placeholder", .s (jsOrString inp.placeholder "")),
     ("maxLength", .n (jsParseIntOr inp.maxLength 255))]
    ++ (if fieldType == "textarea" then [("rows", .n (jsParseIntOr inp.rows 3))] else [])
  else if fieldType == "select" || fieldType == "multiselect"
      || fieldType == "radio" || fieldType == "checkbox" then
    [("options", .opts (collectOptions inp.optionGroups)),
     ("allowOther", .b (jsOrBool inp.allowOther false))]
  else if fieldType == "data_table_lookup" then
    [("dataTableId", .s (jsOrString inp.dataTableSelect "")),
     ("searchable", .b (jsOrBool inp.searchable true)),
     ("multiSelect", .b (jsOrBool inp.multiSelect false)),
     ("minSearchLength", .n (jsParseIntOr inp.minSearchLength 2)),
     ("maxResults", .n (jsParseIntOr inp.maxResults 10))]
  else if fieldType == "dependent_field" then
    [("dependsOn", .s (jsOrString inp.parentField "")),
     ("optionsMap", .omap (collectDependentOptions inp.parentOptions inp.depInputs))]
  else if fieldType == "file_upload" then
    [("maxFileSize", .n (jsParseIntOr inp.maxFileSize 10)),
     ("allowedTypes", .strList (jsSplitCommaTrim (jsOrString inp.allowedTypes ""))),
     ("multipleFiles", .b (jsOrBool inp.multipleFiles false))]
  else if fieldType == "rating" then
    [("maxRating", .n (jsParseIntOr inp.maxRating 5)),
     ("ratingStyle", .s (jsOrString inp.ratingStyle "stars")),
     ("allowHalf", .b (jsOrBool inp.allowHalf false))]
  else []

/-- Read one key of the collected `config` object. -/
def configLookup (key : String) (cfg : List (String × ConfigValue)) :
    Option ConfigValue :=
  (cfg.find? (fun p => p.1 == key)).map (fun p => p.2)

/-- Claim C9 counterexample: `collectFieldTypeConfig` has no `autocomplete`
case, so for an autocomplete field nothing is collected at all: the §6
defaults `minSearchLength=1` / `maxResults=10` are NOT applied (the claim
demands `some 1` / `some 10`). -/
theorem claim_C9_counterexample :
    collectFieldTypeConfig "autocomplete" emptyInputs = []
    ∧ configLookup "minSearchLength" (collectFieldTypeConfig "autocomplete" emptyInputs) = none
    ∧ configLookup "maxResults" (collectFieldTypeConfig "autocomplete" emptyInputs) = none :=
  ⟨rfl, rfl, rfl⟩

/-- Claim C9 (amended): when the corresponding modal input is absent the
literal defaults of §6 are applied for the field types that have a
collection branch — `maxLength=255`, textarea `rows=3`, `data_table_lookup`
`minSearchLength=2` and `maxResults=10`, `maxFileSize=10`, `maxRating=5`,
`ratingStyle="stars"` — but for `autocomplete` no configuration is collected
at all (its §6 defaults exist only as initial DOM input values), so the
autocomplete part of the claim fails. -/
theorem claim_C9_literal_defaults (inp : ConfigInputs) :
    (inp.maxLength = none →
      configLookup "maxLength" (collectFieldTypeConfig "text" inp) = some (.n 255))
    ∧ (inp.maxLength = none →
      configLookup "maxLength" (collectFieldTypeConfig "textarea" inp) = some (.n 255))
    ∧ (inp.rows = none →
      configLookup "rows" (collectFieldTypeConfig "textarea" inp) = some (.n 3))
    ∧ (inp.minSearchLength = none →
      configLookup "minSearchLength" (collectFieldTypeConfig "data_table_lookup" inp)
        = some (.n 2))
    ∧ (inp.maxResults = none →
      configLookup "maxResults" (collectFieldTypeConfig "data_table_lookup" inp)
        = some (.n 10))
    ∧ (inp.maxFileSize = none →
      configLookup "maxFileSize" (collectFieldTypeConfig "file_upload" inp) = some (.n 10))
    ∧ (inp.maxRating = none →
      configLookup "maxRating" (collectFieldTypeConfig "rating" inp) = some (.n 5))
    ∧ (inp.ratingStyle = none →
      configLookup "ratingStyle" (collectFieldTypeConfig "rating" inp) = some (.s "stars"))
    ∧ collectFieldTypeConfig "autocomplete" inp = [] := by
  obtain ⟨ph, ml, rw2, og, ao, dts, se, ms, msl, mr, pf, po, di, mfs, alt, mf, mrat, rs, ah⟩ := inp
  refine ⟨?_, ?_, ?_, ?_, ?_, ?_, ?_, ?_, rfl⟩ <;> (intro h; subst h; rfl)

theorem claim_C9_literal_defaults_witness :
    configLookup "maxLength" (collectFieldTypeConfig "text" emptyInputs) = some (.n 255)
    ∧ configLookup "rows" (collectFieldTypeConfig "textarea" emptyInputs) = some (.n 3)
    ∧ configLookup "minSearchLength" (collectFieldTypeConfig "data_table_lookup" emptyInputs)
        = some (.n 2)
    ∧ configLookup "maxResults" (collectFieldTypeConfig "data_table_lookup" emptyInputs)
        = some (.n 10)
    ∧ configLookup "maxFileSize" (collectFieldTypeConfig "file_upload" emptyInputs)
        = some (.n 10)
    ∧ configLookup "maxRating" (collectFieldTypeConfig "rating" emptyInputs) = some (.n 5)
    ∧ configLookup "ratingStyle" (collectFieldTypeConfig "rating" emptyInputs)
        = some (.s "stars") :=
  ⟨(claim_C9_literal_defaults emptyInputs).1 rfl,
   (claim_C9_literal_defaults emptyInputs).2.2.1 rfl,
   (claim_C9_literal_defaults emptyInputs).2.2.2.1 rfl,
   (claim_C9_literal_defaults emptyInputs).2.2.2.2.1 rfl,
   (claim_C9_literal_defaults emptyInputs).2.2.2.2.2.1 rfl,
   (claim_C9_literal_defaults emptyInputs).2.2.2.2.2.2.1 rfl,
   (claim_C9_literal_defaults emptyInputs).2.2.2.2.2.2.2.1 rfl⟩

/-- Claim C10: for every `data_table_lookup` field the collected
configuration has `searchable=true` no matter how the modal checkbox is set:
`document.getElementById('searchable')?.checked || true` is `true` for
checked, unchecked, and absent alike, so unchecking has no effect. -/
theorem claim_C10_searchable_always_true (inp : ConfigInputs) :
    configLookup "searchable" (collectFieldTypeConfig "data_table_lookup" inp)
      = some (.b true) := by
  obtain ⟨ph, ml, rw2, og, ao, dts, se, ms, msl, mr, pf, po, di, mfs, alt, mf, mrat, rs, ah⟩ := inp
  rcases se with _ | b
  · rfl
  · cases b <;> rfl

/-! ## `saveTemplate` (src/static/js/case-form.js)

`saveTemplate` builds the template payload from the editor state, then
rejects with an alert (and no POST) when the name is empty or the field list
is empty; otherwise it POSTs the payload to
`/enhanced/api/templates/create`. -/

/-- One entry of `this.fields`, as built by `saveFieldConfiguration`
(`is_required` is the `checked ? 1 : 0` numeric flag). -/
structure FieldData where
  field_id : String
  field_name : String
  field_type : String
  is_required : Nat
  config : List (String × ConfigValue)
  validation_rules : List (String × Nat)
deriving DecidableEq, Repr

/-- The editor state `saveTemplate` reads: the three header inputs and the
in-memory field list. -/
structure TemplateForm where
  name : String
  description : String
  category : String
  fields : List FieldData
deriving DecidableEq, Repr

/-- Observable outcome of `saveTemplate`: a validation alert with no POST,
or the POST of the full template object. -/
inductive SaveAction where
  | validationAlert (msg : String)
  | postTemplate (payload : TemplateForm)
deriving DecidableEq, Repr

def saveTemplate (form : TemplateForm) : SaveAction :=
  if form.name == "" then .validationAlert "Please enter a template name"
  else if form.fields.length == 0 then .validationAlert "Please add at least one field"
  else .postTemplate form

/-- Claim C7: `saveTemplate` rejects with a validation alert and issues no
backend POST whenever the template name is empty or the field list is empty,
regardless of other content; with a non-empty name and at least one field it
POSTs the full template object. -/
theorem claim_C7_save_requires_name_and_fields (form : TemplateForm) :
    ((form.name = "" ∨ form.fields = []) →
      ∃ msg, saveTemplate form = .validationAlert msg)
    ∧ (form.name ≠ "" → form.fields ≠ [] →
      saveTemplate form
        = .postTemplate ⟨form.name, form.description, form.category, form.fields⟩) := by
  constructor
  · rintro (hn | hf)
    · exact ⟨"Please enter a template name", by simp [saveTemplate, hn]⟩
    · by_cases hn : form.name = ""
      · exact ⟨"Please enter a template name", by simp [saveTemplate, hn]⟩
      · refine ⟨"Please add at least one field", ?_⟩
        have h0 : form.fields.length = 0 := by simp [hf]
        simp [saveTemplate, hn, h0]
  · intro hn hf
    have h0 : form.fields.length ≠ 0 := by simpa using hf
    simp [saveTemplate, hn, h0]

/-- A concrete field entry used by witnesses. -/
def sampleField : FieldData :=
  ⟨"subject", "Subject", "text", 1, [("placeholder", .s ""), ("maxLength", .n 255)], []⟩

theorem claim_C7_save_requires_name_and_fields_witness :
    (∃ msg, saveTemplate ⟨"", "desc", "general", [sampleField]⟩ = .validationAlert msg)
    ∧ (∃ msg, saveTemplate ⟨"My Template", "desc", "general", []⟩ = .validationAlert msg)
    ∧ saveTemplate ⟨"My Template", "desc", "general", [sampleField]⟩
        = .postTemplate ⟨"My Template", "desc", "general", [sampleField]⟩ :=
  ⟨(claim_C7_save_requires_name_and_fields ⟨"", "desc", "general", [sampleField]⟩).1
      (Or.inl rfl),
   (claim_C7_save_requires_name_and_fields ⟨"My Template", "desc", "general", []⟩).1
      (Or.inr rfl),
   (claim_C7_save_requires_name_and_fields ⟨"My Template", "desc", "general", [sampleField]⟩).2
      (by decide) (by simp)⟩

/-! ## Field-list reorder and numbering
(`initializeSortable` in src/static/js/case-form.js,
`updateAllFieldNumbers` in src/static/js/template-editor.js)

`onEnd` runs `const item = this.fields.splice(evt.oldIndex, 1)[0];
this.fields.splice(evt.newIndex, 0, item);`.  JS `splice(i, 0, x)` clamps
the insertion index to the array length, hence the `min`; Sortable only
reports an in-range `oldIndex`, and when it is out of range the first
splice removes nothing and `item` is `undefined`, modelled by leaving the
list (minus the erased index, a no-op there) unchanged. -/

def reorderFields {α : Type} (fields : List α) (oldIndex newIndex : Nat) : List α :=
  match fields[oldIndex]? with
  | some item =>
      let removed := fields.eraseIdx oldIndex
      removed.insertIdx (min newIndex removed.length) item
  | none => fields.eraseIdx oldIndex

/-- `this.fields.push(fieldData)` (adding a new field). -/
def pushField {α : Type} (fields : List α) (f : α) : List α :=
  fields ++ [f]

/-- `this.fields.splice(index, 1)` (`deleteField`). -/
def deleteField {α : Type} (fields : List α) (index : Nat) : List α :=
  fields.eraseIdx index

/-- The per-editor state written by `updateAllFieldNumbers`: the
`data-field-index` attribute and the 1-based `Field N` header text. -/
structure NumberedField (α : Type) where
  fieldIndex : Nat
  displayNumber : Nat
  field : α
deriving DecidableEq, Repr

/-- `updateAllFieldNumbers()`: renumber every field editor in current order;
position `index` gets attribute `index` and display number `index + 1`. -/
def updateAllFieldNumbers {α : Type} (fields : List α) : List (NumberedField α) :=
  fields.enum.map (fun p => ⟨p.1, p.1 + 1, p.2⟩)

theorem insertIdx_perm_cons {α : Type} (a : α) :
    ∀ (n : Nat) (l : List α), n ≤ l.length → (l.insertIdx n a).Perm (a :: l)
  | 0, l, _ => by simp [List.insertIdx_zero]
  | n + 1, [], h => absurd h (by simp)
  | n + 1, b :: l, h => by
      rw [List.insertIdx_succ_cons]
      exact ((insertIdx_perm_cons a n l (Nat.le_of_succ_le_succ h)).cons b).trans
        (List.Perm.swap a b l)

theorem cons_eraseIdx_perm {α : Type} :
    ∀ (l : List α) (i : Nat) (h : i < l.length), l.Perm (l[i] :: l.eraseIdx i)
  | a :: t, 0, _ => by simp
  | a :: t, i + 1, h => by
      have ht : i < t.length := by simpa using h
      have h1 : (a :: t).Perm (a :: (t[i] :: t.eraseIdx i)) :=
        (cons_eraseIdx_perm t i ht).cons a
      have h2 : (a :: t[i] :: t.eraseIdx i).Perm (t[i] :: a :: t.eraseIdx i) :=
        List.Perm.swap t[i] a (t.eraseIdx i)
      have h3 := h1.trans h2
      simpa using h3

/-- Claim C8: a reorder keeps the same multiset of fields and preserves the
relative order of all unmoved fields (removing the moved element from the
result at its landing position recovers the original list with the element
removed); and after any mutation — reorder, `push`, or delete —
`updateAllFieldNumbers` gives every position the display number
`index + 1` (and attribute `index`), derived purely from array position. -/
theorem claim_C8_reorder_preserves_others {α : Type} (l : List α)
    (oldIndex newIndex : Nat) (x : α) (d i : Nat) (h : oldIndex < l.length) :
    (reorderFields l oldIndex newIndex).Perm l
    ∧ (reorderFields l oldIndex newIndex).eraseIdx (min newIndex (l.length - 1))
        = l.eraseIdx oldIndex
    ∧ (∀ (xs : List α) (j : Nat),
        (updateAllFieldNumbers xs)[j]? = (xs[j]?).map (fun a => ⟨j, j + 1, a⟩))
    ∧ (updateAllFieldNumbers (reorderFields l oldIndex newIndex))[i]?
        = ((reorderFields l oldIndex newIndex)[i]?).map (fun a => ⟨i, i + 1, a⟩)
    ∧ (updateAllFieldNumbers (pushField l x))[i]?
        = ((pushField l x)[i]?).map (fun a => ⟨i, i + 1, a⟩)
    ∧ (updateAllFieldNumbers (deleteField l d))[i]?
        = ((deleteField l d)[i]?).map (fun a => ⟨i, i + 1, a⟩) := by
  have hg : l[oldIndex]? = some l[oldIndex] := List.getElem?_eq_getElem h
  have hlen : (l.eraseIdx oldIndex).length = l.length - 1 :=
    List.length_eraseIdx_of_lt h
  have hnum : ∀ (xs : List α) (j : Nat),
      (updateAllFieldNumbers xs)[j]? = (xs[j]?).map (fun a => ⟨j, j + 1, a⟩) := by
    intro xs j
    cases he : xs[j]? <;>
      simp [updateAllFieldNumbers, List.getElem?_map, List.getElem?_enum, he]
  refine ⟨?_, ?_, hnum, hnum _ i, hnum _ i, hnum _ i⟩
  · rw [reorderFields, hg]
    exact (insertIdx_perm_cons l[oldIndex] _ _ (Nat.min_le_right _ _)).trans
      (cons_eraseIdx_perm l oldIndex h).symm
  · rw [reorderFields, hg]
    show (((l.eraseIdx oldIndex).insertIdx (min newIndex (l.eraseIdx oldIndex).length)
        l[oldIndex]).eraseIdx (min newIndex (l.length - 1))) = l.eraseIdx oldIndex
    rw [hlen]
    exact List.eraseIdx_insertIdx (min newIndex (l.length - 1)) (l.eraseIdx oldIndex)

theorem claim_C8_reorder_preserves_others_witness :
    (reorderFields ["a", "b", "c"] 2 0).Perm ["a", "b", "c"]
    ∧ (reorderFields ["a", "b", "c"] 2 0).eraseIdx (min 0 2) = ["a", "b", "c"].eraseIdx 2
    ∧ (updateAllFieldNumbers (reorderFields ["a", "b", "c"] 2 0))[0]?
        = ((reorderFields ["a", "b", "c"] 2 0)[0]?).map (fun a => ⟨0, 1, a⟩) :=
  ⟨(claim_C8_reorder_preserves_others ["a", "b", "c"] 2 0 "d" 1 0 (by decide)).1,
   (claim_C8_reorder_preserves_others ["a", "b", "c"] 2 0 "d" 1 0 (by decide)).2.1,
   (claim_C8_reorder_preserves_others ["a", "b", "c"] 2 0 "d" 1 0 (by decide)).2.2.2.1⟩

end TechGuides
